import Mathlib

/-!
Verification of the plotting tool in Code_for_thesis.py.

The program reads survey point data (distance, elevation, classification
code) from a spreadsheet file, groups contiguous points sharing a code into
series, and renders them as a colour-coded line plot with a legend.

This file gives a shallow embedding of the data-transformation core:
  * the path helpers used by the program (os.path.splitext, os.path.dirname),
  * the colour registry (class Colors wrapping code_colors),
  * the file reader (read_file, read_file_csv),
  * the series builder (make_series, via itertools.groupby),
  * the legend builder (make_legend) and the per-series unpacking step of
    plot_series,
  * the GUI-boundary error handling (View.plot) and output-path handling
    (View.select_output_file),
and proves the documented properties of these components.

Conventions of the embedding:
  * Python floats are modelled as rationals (no arithmetic is performed on
    the coordinate values, only structural movement).
  * Raising an exception is modelled as returning the error branch of an
    Except value; a bare Python except clause is a match on that value.
  * External effects (the file system, the csv module tokenisation, the
    xlrd library, matplotlib, tkinter) are modelled as parameters: a file
    is given by its already-tokenised rows, the float builtin by a partial
    parse function, and so on.
-/

/-- A coded point as produced by the reader: the row [distance, elevation,
code] of the input file with the first two fields converted to numbers. -/
structure CodedPoint where
  dist : Rat
  elev : Rat
  code : String
deriving DecidableEq, Repr

/-- Index of the last occurrence of a character in a character list
(Python str.rfind, returning none instead of -1). -/
def rfindChar (c : Char) : List Char → Option Nat
  | [] => none
  | x :: xs =>
    match rfindChar c xs with
    | some i => some (i + 1)
    | none => if x = c then some 0 else none

/-- Python os.path.splitext on POSIX paths: split off the extension at the
last dot of the base name, unless every character of the base name before
that dot is itself a dot (leading dots do not start an extension). -/
def splitext (p : String) : String × String :=
  let cs := p.data
  let sepIdx : Int := match rfindChar '/' cs with | some i => (i : Int) | none => -1
  let dotIdx : Int := match rfindChar '.' cs with | some i => (i : Int) | none => -1
  if sepIdx < dotIdx then
    let stem := (cs.drop (sepIdx + 1).toNat).take (dotIdx - sepIdx - 1).toNat
    if stem.any (fun ch => ch ≠ '.') then
      (⟨cs.take dotIdx.toNat⟩, ⟨cs.drop dotIdx.toNat⟩)
    else (p, "")
  else (p, "")

/-- Python os.path.dirname on POSIX paths: everything before the last
slash, with trailing slashes stripped unless the head is all slashes. -/
def dirname (p : String) : String :=
  let cs := p.data
  let i : Nat := match rfindChar '/' cs with | some j => j + 1 | none => 0
  let head := cs.take i
  if head ≠ [] ∧ head.any (fun ch => ch ≠ '/') then
    ⟨(head.reverse.dropWhile (fun ch => ch = '/')).reverse⟩
  else ⟨head⟩

/-! ## The colour registry (class Colors and the code_colors table) -/

/-- The editable configuration table at the top of the script: each code is
mapped to an rgb colour with components in the range [0,255]. -/
def code_colors_raw : List (String × (Nat × Nat × Nat)) :=
  [("Q1ta", (130, 130, 130)),
   ("Q3a", (130, 130, 130)),
   ("Q7u", (43, 133, 161)),
   ("Q8i", (194, 158, 215)),
   ("Q8c", (255, 207, 255)),
   ("Q9w", (79, 122, 56)),
   ("eQw", (255, 127, 127))]

/-- The class Colors wraps the configured pairs; collections.OrderedDict
preserves the configuration order, modelled by keeping the association
list itself (its keys are unique in the shipped configuration). -/
structure Colors where
  colors : List (String × (Rat × Rat × Rat))
deriving DecidableEq, Repr

/-- The tuple self.keys of a Colors instance: the configured codes in
configuration order. -/
def Colors.keys (c : Colors) : List String :=
  c.colors.map Prod.fst

/-- The message of the PlottingError raised by Colors.error for a missing
code (the f-string of the source, written as concatenation so that the
code visibly appears verbatim inside the message). -/
def Colors.error (code : String) : String :=
  "Could not find code: " ++ code ++ ", you may need to add it to \x27code_colors\x27"

/-- Dictionary lookup self._colors[code]: the value at the first matching
key, none when the code is absent (Python then raises KeyError). -/
def lookupCode : List (String × (Rat × Rat × Rat)) → String → Option (Rat × Rat × Rat)
  | [], _ => none
  | (k, v) :: rest, code => if k = code then some v else lookupCode rest code

/-- Colors.__getitem__: return the colour of the code, or raise the
descriptive PlottingError when the dictionary lookup fails. -/
def Colors.getItem (c : Colors) (code : String) : Except String (Rat × Rat × Rat) :=
  match lookupCode c.colors code with
  | some v => .ok v
  | none => .error (Colors.error code)

/-- Tuple search self._keys.index(code): the first index holding the code,
none when absent (Python then raises ValueError). -/
def keyIdx : List String → String → Option Nat
  | [], _ => none
  | k :: rest, code =>
    if k = code then some 0 else (keyIdx rest code).map (· + 1)

/-- Colors.index: return the rank of the code in configuration order, or
raise the descriptive PlottingError when the tuple search fails. -/
def Colors.index (c : Colors) (code : String) : Except String Nat :=
  match keyIdx c.keys code with
  | some i => .ok i
  | none => .error (Colors.error code)

/-- Total variant of the rank used as the sort key of the legend; it agrees
with Colors.index on every configured code (the only codes the legend
claims are about), and defaults to the number of keys otherwise, where the
source would instead raise. -/
def Colors.rankOf (c : Colors) (code : String) : Nat :=
  match keyIdx c.keys code with
  | some i => i
  | none => c.keys.length

/-- The module-level registry: code_colors converted from [0,255] to the
[0,1] range matplotlib expects and wrapped in the Colors class. -/
def code_colors : Colors :=
  ⟨code_colors_raw.map (fun p =>
    (p.1, ((p.2.1 : Rat) / 255, (p.2.2.1 : Rat) / 255, (p.2.2.2 : Rat) / 255)))⟩

/-! ## The file reader (read_file, read_file_csv) -/

/-- The body of the list comprehension of read_file_csv on one csv row:
destructure the row into exactly three fields (ValueError on any other
field count) and convert the first two with float (ValueError on a
non-numeric field), keeping the code string as is. The float builtin is
supplied as the partial function pf. -/
def parseRow (pf : String → Option Rat) (row : List String) : Option CodedPoint :=
  match row with
  | [x, y, code] =>
    match pf x, pf y with
    | some a, some b => some ⟨a, b, code⟩
    | _, _ => none
  | _ => none

/-- The whole list comprehension: all rows convert or the first failure
aborts the comprehension with an exception (no partial list escapes). -/
def parseRows (pf : String → Option Rat) : List (List String) → Option (List CodedPoint)
  | [] => some []
  | row :: rest =>
    match parseRow pf row, parseRows pf rest with
    | some p, some ps => some (p :: ps)
    | _, _ => none

/-- read_file_csv: the csv module yields the file as a list of rows of
string fields (passed here as rows); the first row is the header and is
dropped; every remaining row is converted; any exception inside the try is
caught by the bare except and re-raised as the generic PlottingError. -/
def read_file_csv (pf : String → Option Rat) (filename : String)
    (rows : List (List String)) : Except String (List CodedPoint) :=
  match parseRows pf (rows.drop 1) with
  | some pts => .ok pts
  | none => .error ("Could not read file: " ++ filename)

/-- read_file: dispatch on the extension computed by os.path.splitext.
The xls branch delegates to the external xlrd library, supplied here as
the already-computed result xls. Note the source raises the descriptive
unsupported-filetype PlottingError inside the same try block whose bare
except re-raises every exception as the generic read error, so that
descriptive error never escapes this function. -/
def read_file (pf : String → Option Rat) (rows : List (List String))
    (xls : Except String (List CodedPoint)) (filename : String) :
    Except String (List CodedPoint) :=
  let extension := (splitext filename).2
  let body : Except String (List CodedPoint) :=
    if extension = ".csv" then read_file_csv pf filename rows
    else if extension = ".xls" then xls
    else .error ("Filetype: " ++ extension ++ " is not supported")
  match body with
  | .ok d => .ok d
  | .error _ => .error ("Could not read file: " ++ filename)

/-! ## The series builder (make_series) -/

/-- The (distance, elevation) pair point[:2] kept once a point is grouped. -/
def CodedPoint.pt (p : CodedPoint) : Rat × Rat :=
  (p.dist, p.elev)

/-- make_series: itertools.groupby with key point[2] groups the data into
maximal runs of adjacent points sharing a code, each run keyed by its code;
the comprehension then drops the code from each grouped point. Stated here
by structural recursion: a point either extends the following run (same
code) or opens a run of its own. -/
def make_series : List CodedPoint → List (String × List (Rat × Rat))
  | [] => []
  | p :: ps =>
    match make_series ps with
    | [] => [(p.code, [p.pt])]
    | (c, run) :: rest =>
      if p.code = c then (p.code, p.pt :: run) :: rest
      else (p.code, [p.pt]) :: (c, run) :: rest

/-- The count the specification speaks about, written from its words: the
number of maximal runs of adjacent equal codes in the input sequence. -/
def specRunCount : List String → Nat
  | [] => 0
  | [_] => 1
  | a :: b :: rest => (if a = b then 0 else 1) + specRunCount (b :: rest)

/-! ## The plot renderer (plot_series, plot_data, make_legend) -/

/-- The coordinate unpacking step of plot_series: the statement
x_data, y_data = zip(*data) splits the series points into the x list and
the y list, and raises ValueError when the point list is empty (zip of
nothing yields zero values to unpack into the two variables). -/
def plot_series_unpack (pts : List (Rat × Rat)) : Except String (List Rat × List Rat) :=
  match pts with
  | [] => .error "not enough values to unpack (expected 2, got 0)"
  | l => .ok l.unzip

/-- The saving step of plot_data: plt.savefig(output) runs exactly when
the output argument is a nonempty string, and receives it verbatim. -/
def plot_data_saved (output : String) : Option String :=
  if output ≠ "" then some output else none

/-- The sequence of legend labels built by make_legend: the set of codes
of the series, deduplicated, then sorted by Colors.index rank. Iteration
order of a Python set is unspecified; it is modelled by List.dedup, and
the rank sort that follows makes the final order independent of it
whenever the configured ranks of the codes are distinct. The sort key
code_colors.index raises for an unconfigured code (behaviour covered by
Colors.index above); the total Colors.rankOf used here agrees with it on
configured codes. -/
def make_legend_codes (c : Colors) (data_series : List (String × List (Rat × Rat))) :
    List String :=
  (data_series.map Prod.fst).dedup.insertionSort (fun a b => c.rankOf a ≤ c.rankOf b)

/-! ## The interactive shell (class View) -/

/-- Outcome of the pipeline call do_plot inside the try of View.plot.
Failures carry the exception detail; unexpected covers every non-domain
exception (each descending from Exception, as every pipeline failure
does). -/
inductive PipelineOutcome where
  | ok
  | plottingError (msg : String)
  | unexpected (err : String)
deriving DecidableEq, Repr

/-- What the plot callback did at the GUI boundary: the message shown by
showerror, if any, and the error printed for diagnostics, if any. -/
structure PlotReaction where
  shownMessage : Option String
  loggedError : Option String
deriving DecidableEq, Repr

/-- The generic message of the catch-all branch of View.plot. -/
def unexpectedMessage : String :=
  "Something unexpected went wrong, make sure your input file is formated correctly"

/-- View.plot: the try wraps the pipeline call; except PlottingError shows
the domain message, except Exception shows the generic message and prints
the underlying error. An escaping exception would be the error branch of
the result; the match below is total, so none escapes and the GUI event
loop survives every pipeline failure. -/
def View.plot (outcome : PipelineOutcome) : Except String PlotReaction :=
  match outcome with
  | .ok => .ok ⟨none, none⟩
  | .plottingError msg => .ok ⟨some msg, none⟩
  | .unexpected err => .ok ⟨some unexpectedMessage, some err⟩

/-- The fields of the View instance written by select_output_file (the
input-file fields are untouched by it and omitted). -/
structure ViewState where
  output_file : String
  output_dialog : String
  working_dir : String
deriving DecidableEq, Repr

/-- View.select_output_file applied to the path returned by the native
save dialog: remember the directory, strip any extension from the path,
store the stripped path as the output file, and describe the destination
in the dialog label. Every field it writes is overwritten outright, so
the prior state does not matter. -/
def View.select_output_file (path : String) : ViewState :=
  let wd := dirname path
  let stripped := (splitext path).1
  { output_file := stripped
    output_dialog :=
      if stripped ≠ "" then "Plot will be saved to: " ++ stripped ++ ".png"
      else "You haven\x27t named an output file"
    working_dir := wd }

/-- Whether a string ends in the fixed image extension the specification
speaks about. -/
def hasPngExt (s : String) : Bool :=
  ".png".data.isSuffixOf s.data

/-! ## Sanity checks of the embedding against the behaviour of the
corresponding Python primitives -/

/-- The splitext and dirname models reproduce CPython on representative
paths, including the leading-dot and slash edge cases. -/
theorem path_helpers_examples :
    splitext "input.txt" = ("input", ".txt") ∧
    splitext "chart.jpg" = ("chart", ".jpg") ∧
    splitext "a/b.c/d" = ("a/b.c/d", "") ∧
    splitext ".bashrc" = (".bashrc", "") ∧
    dirname "a/b.txt" = "a" ∧
    dirname "b.txt" = "" ∧
    hasPngExt "chart.png" = true ∧
    hasPngExt "chart" = false := by decide

/-- The shipped registry keeps the configuration order of the codes. -/
theorem code_colors_keys_order :
    code_colors.keys = ["Q1ta", "Q3a", "Q7u", "Q8i", "Q8c", "Q9w", "eQw"] := by decide

/-! ## Reader lemmas -/

/-- A row list whose every row converts is converted elementwise. -/
theorem parseRows_eq_of_forall₂ (pf : String → Option Rat) {l : List (List String)}
    {pts : List CodedPoint}
    (h : List.Forall₂ (fun row p => ∃ x y, row = [x, y, p.code] ∧
      pf x = some p.dist ∧ pf y = some p.elev) l pts) :
    parseRows pf l = some pts := by
  induction h with
  | nil => rfl
  | cons hr _ ih =>
    obtain ⟨x, y, rfl, hx, hy⟩ := hr
    simp [parseRows, parseRow, hx, hy, ih]

/-- One unconvertible row aborts the whole comprehension. -/
theorem parseRows_none_of_mem (pf : String → Option Rat) {l : List (List String)}
    {row : List String} (hrow : row ∈ l) (hbad : parseRow pf row = none) :
    parseRows pf l = none := by
  induction l with
  | nil => cases hrow
  | cons a rest ih =>
    rcases List.mem_cons.mp hrow with rfl | hr
    · simp [parseRows, hbad]
    · simp only [parseRows, ih hr]
      cases parseRow pf a <;> rfl

/-- C5: for every valid delimited-text input whose data rows (header
excluded) each have exactly three fields with the first two parsing as
numbers, read_file_csv returns exactly those rows converted, in file
order: one coded point per data row, first two fields converted by the
float builtin, third kept verbatim as the code. -/
theorem read_file_csv_valid (pf : String → Option Rat) (filename : String)
    (rows : List (List String)) (pts : List CodedPoint)
    (h : List.Forall₂ (fun row p => ∃ x y, row = [x, y, p.code] ∧
      pf x = some p.dist ∧ pf y = some p.elev) (rows.drop 1) pts) :
    read_file_csv pf filename rows = .ok pts ∧ pts.length = (rows.drop 1).length := by
  refine ⟨?_, h.length_eq.symm⟩
  unfold read_file_csv
  rw [parseRows_eq_of_forall₂ pf h]

/-- Witness for C5 on a one-data-row file. -/
theorem read_file_csv_valid_witness :
    read_file_csv (fun s => if s = "0" then some 0 else if s = "1" then some 1 else none)
      "data.csv" [["d", "e", "c"], ["0", "1", "Q7u"]] = .ok [⟨0, 1, "Q7u"⟩] ∧
    ([(⟨0, 1, "Q7u"⟩ : CodedPoint)]).length =
      (([["d", "e", "c"], ["0", "1", "Q7u"]] : List (List String)).drop 1).length :=
  read_file_csv_valid _ "data.csv" _ _
    (List.Forall₂.cons ⟨"0", "1", rfl, rfl, rfl⟩ List.Forall₂.nil)

/-- C6: a malformed data row (wrong field count, or a first or second
field the float builtin rejects) anywhere in the file makes read_file_csv
fail with the single generic read error for the whole file; no partial
list of points is returned. -/
theorem read_file_csv_malformed (pf : String → Option Rat) (filename : String)
    (rows : List (List String)) (row : List String)
    (hrow : row ∈ rows.drop 1)
    (hbad : (∀ x y c, row ≠ [x, y, c]) ∨
      ∃ x y c, row = [x, y, c] ∧ (pf x = none ∨ pf y = none)) :
    read_file_csv pf filename rows = .error ("Could not read file: " ++ filename) := by
  have hb : parseRow pf row = none := by
    rcases hbad with h | ⟨x, y, c, rfl, h⟩
    · match row, h with
      | [], _ => rfl
      | [_], _ => rfl
      | [_, _], _ => rfl
      | [a, b, c], h => exact absurd rfl (h a b c)
      | _ :: _ :: _ :: _ :: _, _ => rfl
    · rcases h with h | h
      · simp [parseRow, h]
      · simp only [parseRow, h]
        cases pf x <;> rfl
  unfold read_file_csv
  rw [parseRows_none_of_mem pf hrow hb]

/-- Witness for C6: a file whose single data row has two fields. -/
theorem read_file_csv_malformed_witness :
    read_file_csv (fun _ => some 0) "data.csv" [["h", "h", "h"], ["1", "2"]] =
      .error ("Could not read file: " ++ "data.csv") :=
  read_file_csv_malformed _ "data.csv" _ ["1", "2"] (by decide)
    (Or.inl (by intro x y c h; simp at h))

/-- C1 (the claim is right, the code has a slip): the unsupported-filetype
PlottingError is raised inside the try block of read_file, whose bare
except catches every exception and re-raises the generic read error, so a
path with an unsupported extension such as input.txt surfaces the generic
error, never the descriptive one the source constructs. -/
theorem read_file_unsupported_collapsed (pf : String → Option Rat)
    (rows : List (List String)) (xls : Except String (List CodedPoint)) :
    read_file pf rows xls "input.txt" = .error ("Could not read file: input.txt") ∧
    read_file pf rows xls "input.txt" ≠ .error ("Filetype: .txt is not supported") := by
  have h : read_file pf rows xls "input.txt" =
      .error ("Could not read file: input.txt") := rfl
  refine ⟨h, ?_⟩
  rw [h]
  intro hc
  injection hc with hmsg
  exact absurd hmsg (by decide)

/-- C4: make_series groups by adjacency, not by unique code: the run of
code A interrupted by code B yields two separate A series. -/
theorem make_series_adjacency_example :
    make_series [⟨0, 0, "A"⟩, ⟨1, 1, "A"⟩, ⟨2, 2, "B"⟩, ⟨3, 3, "A"⟩] =
      [("A", [(0, 0), (1, 1)]), ("B", [(2, 2)]), ("A", [(3, 3)])] := by decide

/-- C9: both except clauses of View.plot return normally to the event
loop: a PlottingError shows its own message and logs nothing, any other
exception shows the fixed generic message and prints the underlying error;
neither failure escapes the handler. -/
theorem view_plot_catches_all (msg err : String) :
    View.plot (.plottingError msg) = .ok ⟨some msg, none⟩ ∧
    View.plot (.unexpected err) = .ok ⟨some unexpectedMessage, some err⟩ :=
  ⟨rfl, rfl⟩

/-- C2 counterexample: choosing chart.jpg in the save dialog stores the
bare stem chart, the saver receives exactly that stem, and it does not end
in the fixed image extension. -/
theorem select_output_file_png_counterexample :
    (View.select_output_file "chart.jpg").output_file = "chart" ∧
    plot_data_saved (View.select_output_file "chart.jpg").output_file = some "chart" ∧
    hasPngExt (View.select_output_file "chart.jpg").output_file = false := by
  refine ⟨rfl, ?_, by decide⟩
  rfl

/-- C2 (amended): the shell strips any extension from the chosen path and
stores the bare stem without appending anything; the fixed extension
appears only in the confirmation dialog text, and the saver receives the
bare stem verbatim (or nothing when the stem is empty). -/
theorem select_output_file_strips_no_append (path : String) :
    (View.select_output_file path).output_file = (splitext path).1 ∧
    plot_data_saved (View.select_output_file path).output_file =
      (if (splitext path).1 = "" then none else some ((splitext path).1)) ∧
    (View.select_output_file path).output_dialog =
      (if (splitext path).1 ≠ "" then "Plot will be saved to: " ++ (splitext path).1 ++ ".png"
       else "You haven\x27t named an output file") := by
  refine ⟨rfl, ?_, rfl⟩
  by_cases h : (splitext path).1 = "" <;>
    simp [plot_data_saved, View.select_output_file, h]

/-! ## Colour registry lemmas -/

/-- Dictionary lookup fails exactly on the absent keys. -/
theorem lookupCode_eq_none_of_not_mem {l : List (String × (Rat × Rat × Rat))}
    {code : String} (h : code ∉ l.map Prod.fst) : lookupCode l code = none := by
  induction l with
  | nil => rfl
  | cons kv rest ih =>
    obtain ⟨k, v⟩ := kv
    simp only [List.map_cons, List.mem_cons] at h
    push_neg at h
    simp only [lookupCode]
    rw [if_neg (fun he => h.1 he.symm), ih h.2]

/-- Dictionary lookup succeeds on every present key. -/
theorem lookupCode_isSome_of_mem {l : List (String × (Rat × Rat × Rat))}
    {code : String} (h : code ∈ l.map Prod.fst) :
    ∃ v, lookupCode l code = some v := by
  induction l with
  | nil => cases h
  | cons kv rest ih =>
    obtain ⟨k, v⟩ := kv
    by_cases hk : k = code
    · exact ⟨v, by simp [lookupCode, hk]⟩
    · simp only [List.map_cons, List.mem_cons] at h
      rcases h with h | h
      · exact absurd h.symm hk
      · obtain ⟨w, hw⟩ := ih h
        exact ⟨w, by simp [lookupCode, hk, hw]⟩

/-- Tuple search fails exactly on the absent keys. -/
theorem keyIdx_eq_none_of_not_mem {l : List String} {code : String}
    (h : code ∉ l) : keyIdx l code = none := by
  induction l with
  | nil => rfl
  | cons k rest ih =>
    simp only [List.mem_cons] at h
    push_neg at h
    simp only [keyIdx]
    rw [if_neg (fun he => h.1 he.symm), ih h.2]
    rfl

/-- Tuple search succeeds on every present key. -/
theorem keyIdx_isSome_of_mem {l : List String} {code : String} (h : code ∈ l) :
    ∃ i, keyIdx l code = some i := by
  induction l with
  | nil => cases h
  | cons k rest ih =>
    by_cases hk : k = code
    · exact ⟨0, by simp [keyIdx, hk]⟩
    · rcases List.mem_cons.mp h with rfl | hr
      · exact absurd rfl hk
      · obtain ⟨j, hj⟩ := ih hr
        exact ⟨j + 1, by simp [keyIdx, hk, hj]⟩

/-- The index the tuple search returns indeed holds the searched key. -/
theorem keyIdx_getElem (l : List String) (code : String) :
    ∀ i, keyIdx l code = some i → l[i]? = some code := by
  induction l with
  | nil => intro i h; cases h
  | cons k rest ih =>
    intro i h
    simp only [keyIdx] at h
    by_cases hk : k = code
    · rw [if_pos hk] at h
      cases h
      simp [hk]
    · rw [if_neg hk] at h
      cases hr : keyIdx rest code with
      | none => rw [hr] at h; cases h
      | some j =>
        rw [hr] at h
        have h' : j + 1 = i := by simpa using h
        subst h'
        rw [List.getElem?_cons_succ]
        exact ih j hr

/-- Two configured codes with the same rank coincide. -/
theorem rankOf_inj {c : Colors} {a b : String} (ha : a ∈ c.keys) (hb : b ∈ c.keys)
    (h : c.rankOf a = c.rankOf b) : a = b := by
  obtain ⟨i, hi⟩ := keyIdx_isSome_of_mem ha
  obtain ⟨j, hj⟩ := keyIdx_isSome_of_mem hb
  have hra : c.rankOf a = i := by simp [Colors.rankOf, hi]
  have hrb : c.rankOf b = j := by simp [Colors.rankOf, hj]
  rw [hra, hrb] at h
  subst h
  have h1 := keyIdx_getElem c.keys a i hi
  have h2 := keyIdx_getElem c.keys b i hj
  rw [h1] at h2
  exact Option.some.inj h2

/-- C7: both lookups of the colour registry fail on every unconfigured
code with the domain error whose message contains that exact code between
the fixed instruction text telling the maintainer to add it to
code_colors, and both succeed on every configured code. -/
theorem colors_lookup_total (c : Colors) (code : String) :
    (code ∉ c.keys →
      c.getItem code = .error ("Could not find code: " ++ code ++
        ", you may need to add it to \x27code_colors\x27") ∧
      c.index code = .error ("Could not find code: " ++ code ++
        ", you may need to add it to \x27code_colors\x27")) ∧
    (code ∈ c.keys → (∃ v, c.getItem code = .ok v) ∧ (∃ i, c.index code = .ok i)) := by
  constructor
  · intro h
    constructor
    · have hl : lookupCode c.colors code = none :=
        lookupCode_eq_none_of_not_mem (by simpa [Colors.keys] using h)
      simp [Colors.getItem, hl, Colors.error]
    · have hk : keyIdx c.keys code = none := keyIdx_eq_none_of_not_mem h
      simp [Colors.index, hk, Colors.error]
  · intro h
    constructor
    · obtain ⟨v, hv⟩ := lookupCode_isSome_of_mem (l := c.colors) (by simpa [Colors.keys] using h)
      exact ⟨v, by simp [Colors.getItem, hv]⟩
    · obtain ⟨i, hi⟩ := keyIdx_isSome_of_mem h
      exact ⟨i, by simp [Colors.index, hi]⟩

/-- Witness for C7 on the shipped registry: the code zzz is not
configured and errors; the code Q7u is configured and resolves. -/
theorem colors_lookup_total_witness :
    code_colors.getItem "zzz" = .error ("Could not find code: " ++ "zzz" ++
      ", you may need to add it to \x27code_colors\x27") ∧
    (code_colors.index "Q7u").isOk = true := by
  constructor
  · exact ((colors_lookup_total code_colors "zzz").1 (by decide)).1
  · obtain ⟨i, hi⟩ := ((colors_lookup_total code_colors "Q7u").2 (by decide)).2
    rw [hi]
    rfl

/-! ## Series builder lemmas -/

/-- make_series returns the empty list exactly on the empty input. -/
theorem make_series_eq_nil_iff (data : List CodedPoint) :
    make_series data = [] ↔ data = [] := by
  cases data with
  | nil => simp [make_series]
  | cons p ps =>
    simp only [make_series]
    cases make_series ps with
    | nil => simp
    | cons hd tl =>
      obtain ⟨c, run⟩ := hd
      by_cases hc : p.code = c <;> simp [hc]

/-- The first series of a nonempty input is keyed by the first point and
starts with that point. -/
theorem make_series_cons_head (p : CodedPoint) (ps : List CodedPoint) :
    ∃ run rest, make_series (p :: ps) = (p.code, p.pt :: run) :: rest := by
  simp only [make_series]
  cases make_series ps with
  | nil => exact ⟨[], [], rfl⟩
  | cons hd tl =>
    obtain ⟨c, run⟩ := hd
    dsimp only
    by_cases hc : p.code = c
    · rw [if_pos hc]
      exact ⟨run, tl, rfl⟩
    · rw [if_neg hc]
      exact ⟨[], (c, run) :: tl, rfl⟩

/-- Concatenating the grouped points recovers the input points. -/
theorem make_series_flatten (data : List CodedPoint) :
    ((make_series data).map Prod.snd).flatten = data.map CodedPoint.pt := by
  induction data with
  | nil => rfl
  | cons p ps ih =>
    simp only [make_series]
    rcases hm : make_series ps with _ | ⟨⟨c, run⟩, tl⟩
    · have hps : ps = [] := (make_series_eq_nil_iff ps).mp hm
      subst hps
      rfl
    · rw [hm] at ih
      dsimp only
      by_cases hc : p.code = c
      · rw [if_pos hc]
        simp only [List.map_cons, List.flatten_cons] at ih ⊢
        rw [List.cons_append, ih]
      · rw [if_neg hc]
        simp only [List.map_cons, List.flatten_cons] at ih ⊢
        rw [List.singleton_append, ih]

/-- The number of series equals the specification's count of maximal
adjacent-equal-code runs. -/
theorem make_series_length (data : List CodedPoint) :
    (make_series data).length = specRunCount (data.map CodedPoint.code) := by
  induction data with
  | nil => rfl
  | cons p ps ih =>
    cases ps with
    | nil => rfl
    | cons q qs =>
      obtain ⟨run, rest, hq⟩ := make_series_cons_head q qs
      rw [hq] at ih
      rw [make_series, hq]
      dsimp only
      simp only [List.map_cons] at ih ⊢
      by_cases hc : p.code = q.code
      · rw [if_pos hc, specRunCount, if_pos hc]
        simp only [List.length_cons] at ih ⊢
        omega
      · rw [if_neg hc, specRunCount, if_neg hc]
        simp only [List.length_cons] at ih ⊢
        omega

/-- Every series make_series builds holds at least one point. -/
theorem snd_ne_nil_of_mem_make_series :
    ∀ (data : List CodedPoint) (s : String × List (Rat × Rat)),
      s ∈ make_series data → s.2 ≠ [] := by
  intro data
  induction data with
  | nil => intro s h; cases h
  | cons p ps ih =>
    intro s h
    simp only [make_series] at h
    rcases hm : make_series ps with _ | ⟨⟨c, run⟩, tl⟩ <;> rw [hm] at h <;> dsimp only at h
    · rcases List.mem_singleton.mp h with rfl
      simp
    · by_cases hc : p.code = c
      · rw [if_pos hc] at h
        rcases List.mem_cons.mp h with rfl | hs
        · simp
        · exact ih s (hm ▸ List.mem_cons_of_mem _ hs)
      · rw [if_neg hc] at h
        rcases List.mem_cons.mp h with rfl | hs
        · simp
        · exact ih s (hm ▸ hs)

/-- C3: for every input, concatenating the point lists of the series in
output order yields exactly the (distance, elevation) pairs of the input
in original order, and the number of series equals the number of maximal
runs of adjacent points with equal codes. -/
theorem make_series_concat_count (data : List CodedPoint) :
    ((make_series data).map Prod.snd).flatten = data.map CodedPoint.pt ∧
    (make_series data).length = specRunCount (data.map CodedPoint.code) :=
  ⟨make_series_flatten data, make_series_length data⟩

/-- C10: every series the pipeline produces holds at least one point, so
the coordinate unpacking of plot_series never sees an empty point list and
always succeeds with the unzipped coordinate lists. -/
theorem make_series_series_nonempty (data : List CodedPoint)
    (s : String × List (Rat × Rat)) (h : s ∈ make_series data) :
    s.2 ≠ [] ∧ plot_series_unpack s.2 = .ok s.2.unzip := by
  have hne := snd_ne_nil_of_mem_make_series data s h
  refine ⟨hne, ?_⟩
  cases hs : s.2 with
  | nil => exact absurd hs hne
  | cons a l => rfl

/-- Witness for C10 at a one-point input. -/
theorem make_series_series_nonempty_witness :
    (("A", [((0 : Rat), (0 : Rat))]) : String × List (Rat × Rat)).2 ≠ [] ∧
    plot_series_unpack (("A", [((0 : Rat), (0 : Rat))]) : String × List (Rat × Rat)).2 =
      .ok (("A", [((0 : Rat), (0 : Rat))]) : String × List (Rat × Rat)).2.unzip :=
  make_series_series_nonempty [⟨0, 0, "A"⟩] ("A", [(0, 0)]) (by decide)

/-! ## Legend lemmas -/

/-- On configured codes the total sort key agrees with Colors.index. -/
theorem index_eq_rankOf_of_mem {c : Colors} {code : String} (h : code ∈ c.keys) :
    c.index code = .ok (c.rankOf code) := by
  obtain ⟨i, hi⟩ := keyIdx_isSome_of_mem h
  simp [Colors.index, Colors.rankOf, hi]

/-- C8: whenever every series code is configured, the legend labels are
the unique codes of the series (repeated runs deduplicated, one label per
code) in strictly increasing configuration rank, not appearance or
alphabetical order; in particular series coded B, A, B under the
configuration order A then B give exactly the two labels A before B. -/
theorem make_legend_ordering :
    (∀ (c : Colors) (series : List (String × List (Rat × Rat))),
      (∀ s ∈ series, s.1 ∈ c.keys) →
        (make_legend_codes c series).Nodup ∧
        (∀ code, code ∈ make_legend_codes c series ↔ code ∈ series.map Prod.fst) ∧
        (make_legend_codes c series).Pairwise (fun a b => c.rankOf a < c.rankOf b) ∧
        (∀ code ∈ make_legend_codes c series, c.index code = .ok (c.rankOf code))) ∧
    make_legend_codes ⟨[("A", (0, 0, 0)), ("B", (0, 0, 0))]⟩
      [("B", [(0, 0)]), ("A", [(1, 1)]), ("B", [(2, 2)])] = ["A", "B"] := by
  constructor
  · intro c series hconf
    haveI : IsTotal String (fun a b => c.rankOf a ≤ c.rankOf b) :=
      ⟨fun a b => Nat.le_total _ _⟩
    haveI : IsTrans String (fun a b => c.rankOf a ≤ c.rankOf b) :=
      ⟨fun _ _ _ h1 h2 => Nat.le_trans h1 h2⟩
    have hperm := List.perm_insertionSort (fun a b => c.rankOf a ≤ c.rankOf b)
      ((series.map Prod.fst).dedup)
    have hnodup : (make_legend_codes c series).Nodup :=
      hperm.symm.nodup (List.nodup_dedup _)
    have hmem : ∀ code, code ∈ make_legend_codes c series ↔ code ∈ series.map Prod.fst := by
      intro code
      simp [make_legend_codes, List.mem_insertionSort, List.mem_dedup]
    have hkeys : ∀ code ∈ make_legend_codes c series, code ∈ c.keys := by
      intro code hcode
      obtain ⟨s, hs, rfl⟩ := List.mem_map.mp ((hmem code).mp hcode)
      exact hconf s hs
    refine ⟨hnodup, hmem, ?_, fun code hcode => index_eq_rankOf_of_mem (hkeys code hcode)⟩
    have hsorted : (make_legend_codes c series).Pairwise
        (fun a b => c.rankOf a ≤ c.rankOf b) :=
      List.sorted_insertionSort (fun a b => c.rankOf a ≤ c.rankOf b) _
    have hpair := List.Pairwise.and_mem.mp (hsorted.and hnodup)
    refine hpair.imp ?_
    intro a b hab
    obtain ⟨haL, hbL, hle, hne⟩ := hab
    have haK : a ∈ c.keys := by
      obtain ⟨s, hs, rfl⟩ := List.mem_map.mp ((hmem a).mp haL)
      exact hconf s hs
    have hbK : b ∈ c.keys := by
      obtain ⟨s, hs, rfl⟩ := List.mem_map.mp ((hmem b).mp hbL)
      exact hconf s hs
    exact lt_of_le_of_ne hle (fun he => hne (rankOf_inj haK hbK he))
  · decide

/-- Witness for C8 on the shipped registry with two configured codes
appearing in reverse configuration order. -/
theorem make_legend_ordering_witness :
    (make_legend_codes code_colors [("Q3a", [(0, 0)]), ("Q1ta", [(1, 1)])]).Nodup ∧
    ("Q1ta" ∈ make_legend_codes code_colors [("Q3a", [(0, 0)]), ("Q1ta", [(1, 1)])] ↔
      "Q1ta" ∈ ([("Q3a", [(0, 0)]), ("Q1ta", [(1, 1)])] :
        List (String × List (Rat × Rat))).map Prod.fst) := by
  have h := make_legend_ordering.1 code_colors [("Q3a", [(0, 0)]), ("Q1ta", [(1, 1)])]
    (by decide)
  exact ⟨h.1, h.2.1 "Q1ta"⟩
